import Mathlib

/-!
# Verification of the password-reset / login subsystem (gameqa/api)

Shallow embedding of the user-model statics in
`src/models/PrizeCategories/interface.ts` (the reset-password and login
functions `findByCreds`, `findByEmailAndRequestResetPasswordCode`,
`findByEmailAndRequestResetPasswordToken`, `findByEmailAndResetPassword`)
and proofs of the spec claims about them.

Modelling conventions:
* Timestamps (`Date.getTime()`, ms since epoch) are `Nat`.  JS computes
  `now - requestedAt` as a signed number; with truncated `Nat` subtraction a
  clock running backwards gives `0`, which is `≤ TTL` exactly as the negative
  JS value is, so the branch outcomes coincide.
* Each operation takes the current time `now` and any freshly drawn random
  strings as explicit arguments (the spec injects `Clock` and `SecureRandom`);
  all `new Date()` calls inside one operation share the one logical `now`.
* The hashing helpers (`user.sha256`, `user.hashString`), the slow password
  hash (bcrypt, applied by a presave hook), `toISOString`, `getPublic` and
  `AuthTokens.generate` live outside `src/`; following the spec they are
  abstract functions collected in an `Env` record (the spec has a single fast
  one-way hash `Hasher.fastHash` for both codes and tokens, and
  `Hasher.slowHash` for passwords).
* Thrown `Error`s become constructors of `ResetError`, one per distinct
  failure kind of the spec taxonomy (§7); each throw site is noted at its
  branch.  The user store is a list of records; `findOne {email}` is first
  match on the exact email field and `save`/`update` replaces the record.
-/

/-- The error taxonomy of spec §7 (each source throw site maps to one kind). -/
inductive ResetError where
  | invalidInput
  | notFound
  | rateLimited
  | expired
  | mismatch
  | invalidCredentials
deriving Repr, DecidableEq

/-- `user.resetPasswordCode`: stored (hashed) code plus issuance time. -/
structure ResetCodeInfo where
  code : String
  requestedAt : Nat
deriving Repr, DecidableEq

/-- `user.resetPasswordToken`: stored token plus issuance time. -/
structure ResetTokenInfo where
  token : String
  requestedAt : Nat
deriving Repr, DecidableEq

/-- The fields of the mongoose user document used by this subsystem.
`password` holds the slow hash of the current password (`credentialHash`). -/
structure UserRecord where
  id : String
  email : String
  password : String
  resetPasswordCode : Option ResetCodeInfo := none
  resetPasswordCodeGuessCount : Nat := 0
  resetPasswordToken : Option ResetTokenInfo := none
deriving Repr, DecidableEq

/-- Injected collaborators and configuration constants (spec §6).
`fastHash` stands for the `sha256`/`hashString` helpers, `slowHash` for the
bcrypt hashing the presave hook applies to `user.password`, `slowCompare`
for `bcrypt.compare`; `toISOString` renders a timestamp the way
`Date.toISOString` does; `getPublic` and `generateAuthToken` are the opaque
public-view and session-token collaborators; the three numbers are
`RESET_PASSWORD_MAX_GUESS_COUNT`, `RESET_PASSWORD_CODE_TIME_PERIOD_LENGTH`
and `RESET_PASSWORD_TOKEN_TIME_PERIOD_LENGTH` from `utils`. -/
structure Env where
  fastHash : String → String
  slowHash : String → String
  slowCompare : String → String → Bool
  toISOString : Nat → String
  getPublic : UserRecord → String
  generateAuthToken : String → String
  maxGuessCount : Nat
  codeTTL : Nat
  tokenTTL : Nat

/-- The user store; mongoose collection with one document per user. -/
abbrev Store := List UserRecord

/-- `this.findOne({ email })`: first record whose `email` field equals the
query exactly. -/
def findOne (store : Store) (email : String) : Option UserRecord :=
  store.find? (fun u => u.email == email)

/-- `user.save()` / `user.update(...)`: persist the mutated document back
into the collection (the document is keyed by its unchanged email). -/
def saveUser (store : Store) (u : UserRecord) : Store :=
  store.map (fun v => if v.email == u.email then u else v)

/-- Drop leading whitespace characters from a character list. -/
def dropLeadingWs : List Char → List Char
  | [] => []
  | c :: cs => if c.isWhitespace then dropLeadingWs cs else c :: cs

/-- `email.toLowerCase().trim()` as used by `findByCreds`: lower-case every
character, then remove whitespace from both ends (structural translation of
the JS operations so the model is kernel-computable). -/
def normalizeEmail (email : String) : String :=
  ⟨(dropLeadingWs ((dropLeadingWs (email.data.map Char.toLower).reverse).reverse))⟩

/-- `findByCreds` (login, interface.ts lines 77–96): look the user up by the
lower-cased trimmed email; the not-found throw and the bcrypt-mismatch throw
use the identical translation string, embedded here as the single kind
`invalidCredentials`; on success return `{ user: user.getPublic(), token }`
with `token = AuthTokens.generate(user._id)`.  The store is not mutated. -/
def findByCreds (env : Env) (store : Store) (email password : String) :
    Except ResetError (String × String) :=
  match findOne store (normalizeEmail email) with
  | none => .error .invalidCredentials
  | some user =>
    if env.slowCompare password user.password then
      .ok (env.getPublic user, env.generateAuthToken user.id)
    else
      .error .invalidCredentials

/-- `findByEmailAndRequestResetPasswordCode` (interface.ts lines 106–121).
`plainCode` is the string SecureRandom draws
(`utils.generateVerificationCode(RESET_PASSWORD_CODE_LENGTH)`).
Modelled from the spec: `generateVerificationCode` and the persistence hook
are outside `src/`; per spec §4.1 what is stored in
`resetPasswordCode.code` is the fast one-way hash of the generated code
(the verifier at lines 162–166 compares that field against
`sha256(submitted)`). -/
def findByEmailAndRequestResetPasswordCode (env : Env) (store : Store)
    (email plainCode : String) (now : Nat) :
    Except ResetError Unit × Store :=
  match findOne store email with
  | none => (.error .notFound, store)  -- "User not found with email: ..."
  | some user =>
    let user' : UserRecord :=
      { user with
        resetPasswordCode := some ⟨env.fastHash plainCode, now⟩
        resetPasswordToken := none
        resetPasswordCodeGuessCount := 0 }
    (.ok (), saveUser store user')

/-- `findByEmailAndRequestResetPasswordToken` (interface.ts lines 137–212):
code verification and, on success, token issuance.  `code` is `Option` so
that a JS `undefined` submission is representable; `rand` is the string
SecureRandom draws for the token
(`utils.generateVerificationCode(RESET_PASSWORD_TOKEN_RANDOM_NUM_LENGTH)`).
Branches in source order: absent code ("No code received"), user missing or
no pending code ("No user with email ... has requested code"), guess count
("Too many attempts..."), expiry ("code is no longer valid"), hash mismatch
("Hashed codes do not match", incrementing the counter and saving), then the
success path: token = fastHash(stored code hash ++ ISO timestamp ++ rand),
stored with `requestedAt: now`, while `$unset` clears the code. -/
def findByEmailAndRequestResetPasswordToken (env : Env) (store : Store)
    (email : String) (code : Option String) (now : Nat) (rand : String) :
    Except ResetError String × Store :=
  match code with
  | none => (.error .invalidInput, store)
  | some code =>
    match findOne store email with
    | none => (.error .notFound, store)
    | some user =>
      match user.resetPasswordCode with
      | none => (.error .notFound, store)
      | some rc =>
        if env.maxGuessCount ≤ user.resetPasswordCodeGuessCount then
          (.error .rateLimited, store)
        else if env.codeTTL < now - rc.requestedAt then
          (.error .expired, store)
        else if rc.code ≠ env.fastHash code then
          let user' : UserRecord :=
            { user with
              resetPasswordCodeGuessCount :=
                user.resetPasswordCodeGuessCount + 1 }
          (.error .mismatch, saveUser store user')
        else
          let tok : String :=
            env.fastHash (rc.code ++ env.toISOString now ++ rand)
          let user' : UserRecord :=
            { user with
              resetPasswordToken := some ⟨tok, now⟩
              resetPasswordCode := none }
          (.ok tok, saveUser store user')

/-- `findByEmailAndResetPassword` (interface.ts lines 225–259): re-validate
the token, then commit the new password.  Branches in source order: absent
token ("No code received"), user missing or no pending token ("No user with
email ... has requested token"), expiry ("Token is no longer valid"),
mismatch ("Token invalid"); then `user.password = password` — modelled from
the spec: the presave bcrypt hook (outside `src/`) slow-hashes the assigned
password before it is persisted (§4.5) — `$unset` clears the token, and the
updated user document is returned. -/
def findByEmailAndResetPassword (env : Env) (store : Store)
    (email : String) (token : Option String) (password : String) (now : Nat) :
    Except ResetError UserRecord × Store :=
  match token with
  | none => (.error .invalidInput, store)
  | some token =>
    match findOne store email with
    | none => (.error .notFound, store)
    | some user =>
      match user.resetPasswordToken with
      | none => (.error .notFound, store)
      | some rt =>
        if env.tokenTTL < now - rt.requestedAt then
          (.error .expired, store)
        else if token ≠ rt.token then
          (.error .mismatch, store)
        else
          let user' : UserRecord :=
            { user with
              password := env.slowHash password
              resetPasswordToken := none }
          (.ok user', saveUser store user')

/-- Modelled from the spec: TokenVerifier (§4.4) is not a separate function
in the source (the commit path inlines its checks); this definition follows
the spec words — `InvalidInput` if the token is absent, `NotFound` if the
user or `pendingResetToken` is absent, `Expired` past `tokenTTL`, `Mismatch`
on inequality — and is compared against the commit path for claim C3. -/
def verifyResetToken (env : Env) (store : Store)
    (email : String) (token : Option String) (now : Nat) :
    Except ResetError Unit :=
  match token with
  | none => .error .invalidInput
  | some token =>
    match findOne store email with
    | none => .error .notFound
    | some user =>
      match user.resetPasswordToken with
      | none => .error .notFound
      | some rt =>
        if env.tokenTTL < now - rt.requestedAt then .error .expired
        else if token ≠ rt.token then .error .mismatch
        else .ok ()

/-- Forget the success value of a result, keeping only its error kind. -/
def toUnitResult (r : Except ResetError α) : Except ResetError Unit :=
  r.map (fun _ => ())

/-- One invocation of the reset subsystem, with its oracle data (clock and
random draws) recorded in the constructor. -/
inductive ResetOp where
  | request (email plainCode : String) (now : Nat)
  | verify (email : String) (code : Option String) (now : Nat) (rand : String)
  | commit (email : String) (token : Option String) (password : String)
      (now : Nat)

/-- The store after one operation (results discarded). -/
def applyOp (env : Env) (store : Store) : ResetOp → Store
  | .request e c n => (findByEmailAndRequestResetPasswordCode env store e c n).2
  | .verify e c n r =>
      (findByEmailAndRequestResetPasswordToken env store e c n r).2
  | .commit e t p n => (findByEmailAndResetPassword env store e t p n).2

/-- The store after a sequence of operations. -/
def runOps (env : Env) (store : Store) : List ResetOp → Store
  | [] => store
  | op :: ops => runOps env (applyOp env store op) ops

/-- Spec §3 invariant: at most one of `pendingResetCode` /
`pendingResetToken` is present. -/
def atMostOnePending (u : UserRecord) : Prop :=
  u.resetPasswordCode = none ∨ u.resetPasswordToken = none

/-- A concrete environment used by the witnesses: hashes are tagging
functions, comparison checks the tag. -/
def testEnv : Env :=
  { fastHash := fun s => "#" ++ s
    slowHash := fun s => "!" ++ s
    slowCompare := fun p h => h == "!" ++ p
    toISOString := fun n => "T" ++ toString n
    getPublic := fun u => u.email
    generateAuthToken := fun i => i ++ "-session"
    maxGuessCount := 5
    codeTTL := 300000
    tokenTTL := 300000 }

/-- A concrete user used by the witnesses: code issued at time 0, hash of
the 8-digit code 12345678 stored. -/
def testUser : UserRecord :=
  { id := "u1"
    email := "user@example.com"
    password := "!hunter2"
    resetPasswordCode := some ⟨"#12345678", 0⟩
    resetPasswordCodeGuessCount := 0
    resetPasswordToken := none }

example :
    (findByEmailAndRequestResetPasswordToken testEnv [testUser]
      "user@example.com" (some "12345678") 10000 "rnd").1 =
    .ok "##12345678T10000rnd" := by rfl

example :
    (findByEmailAndRequestResetPasswordToken testEnv [testUser]
      "user@example.com" (some "00000000") 10000 "rnd").1 =
    .error .mismatch := by rfl

example :
    findByCreds testEnv [testUser] " User@Example.COM" "hunter2" =
    .ok ("user@example.com", "u1-session") := by rfl

/-! ## Store lemmas -/

theorem findOne_mem {store : Store} {email : String} {u : UserRecord}
    (h : findOne store email = some u) : u ∈ store :=
  List.mem_of_find?_eq_some h

theorem findOne_email {store : Store} {email : String} {u : UserRecord}
    (h : findOne store email = some u) : u.email = email := by
  have hp := List.find?_some h
  simpa using hp

theorem mem_saveUser {store : Store} {u' v : UserRecord}
    (h : v ∈ saveUser store u') : v = u' ∨ v ∈ store := by
  unfold saveUser at h
  rcases List.mem_map.mp h with ⟨w, hw, hww⟩
  by_cases hc : w.email = u'.email
  · left
    simp [hc] at hww
    exact hww.symm
  · right
    simp [hc] at hww
    exact hww ▸ hw

theorem findOne_saveUser_self {store : Store} {email : String}
    {u u' : UserRecord} (h : findOne store email = some u)
    (he : u'.email = u.email) :
    findOne (saveUser store u') email = some u' := by
  induction store with
  | nil => simp [findOne] at h
  | cons v rest ih =>
    have hue : u.email = email := findOne_email h
    by_cases hv : v.email = email
    · have hvu : v = u := by
        have hcons := h
        unfold findOne at hcons
        rw [List.find?_cons_of_pos _ (by simp [hv])] at hcons
        exact Option.some.inj hcons
      have hb' : (v.email == u'.email) = true := by
        simp [he, hvu]
      have hs : saveUser (v :: rest) u' = u' :: saveUser rest u' := by
        simp [saveUser, List.map, hb']
      rw [hs]
      unfold findOne
      exact List.find?_cons_of_pos _ (by simp [he, hue])
    · have hb' : (v.email == u'.email) = false := by
        simp only [he, hue]
        simpa using hv
      have h2 : findOne rest email = some u := by
        unfold findOne at h ⊢
        rwa [List.find?_cons_of_neg _ (by simp [hv])] at h
      have hs : saveUser (v :: rest) u' = v :: saveUser rest u' := by
        simp [saveUser, List.map, hb']
      rw [hs]
      unfold findOne
      exact (List.find?_cons_of_neg _ (by simp [hv])).trans (ih h2)

/-! ## Characterization lemmas, one per operation -/

theorem request_spec (env : Env) (store : Store) (email plainCode : String)
    (now : Nat) (user : UserRecord) (hfind : findOne store email = some user) :
    findByEmailAndRequestResetPasswordCode env store email plainCode now =
      (.ok (), saveUser store
        { user with
          resetPasswordCode := some ⟨env.fastHash plainCode, now⟩
          resetPasswordToken := none
          resetPasswordCodeGuessCount := 0 }) := by
  unfold findByEmailAndRequestResetPasswordCode
  rw [hfind]

theorem verify_spec (env : Env) (store : Store) (email code rand : String)
    (now : Nat) (user : UserRecord) (rc : ResetCodeInfo)
    (hfind : findOne store email = some user)
    (hcode : user.resetPasswordCode = some rc) :
    findByEmailAndRequestResetPasswordToken env store email (some code) now rand =
      if env.maxGuessCount ≤ user.resetPasswordCodeGuessCount then
        (.error .rateLimited, store)
      else if env.codeTTL < now - rc.requestedAt then
        (.error .expired, store)
      else if rc.code ≠ env.fastHash code then
        (.error .mismatch, saveUser store
          { user with resetPasswordCodeGuessCount :=
              user.resetPasswordCodeGuessCount + 1 })
      else
        (.ok (env.fastHash (rc.code ++ env.toISOString now ++ rand)),
          saveUser store
            { user with
              resetPasswordToken :=
                some ⟨env.fastHash (rc.code ++ env.toISOString now ++ rand), now⟩
              resetPasswordCode := none }) := by
  unfold findByEmailAndRequestResetPasswordToken
  rw [hfind]
  dsimp only
  rw [hcode]

theorem commit_spec (env : Env) (store : Store) (email token pw : String)
    (now : Nat) (user : UserRecord) (rt : ResetTokenInfo)
    (hfind : findOne store email = some user)
    (htok : user.resetPasswordToken = some rt) :
    findByEmailAndResetPassword env store email (some token) pw now =
      if env.tokenTTL < now - rt.requestedAt then
        (.error .expired, store)
      else if token ≠ rt.token then
        (.error .mismatch, store)
      else
        (.ok { user with
            password := env.slowHash pw
            resetPasswordToken := none },
          saveUser store
            { user with
              password := env.slowHash pw
              resetPasswordToken := none }) := by
  unfold findByEmailAndResetPassword
  rw [hfind]
  dsimp only
  rw [htok]

/-! ## Claims -/

/-- C8: for every email that matches an existing user, requestResetCode
(findByEmailAndRequestResetPasswordCode) succeeds and the persisted record
has resetGuessCount 0, pendingResetCode = (hash of the freshly generated
code, current timestamp), and no pendingResetToken. -/
theorem claim_C8_request_resets_state (env : Env) (store : Store)
    (email plainCode : String) (now : Nat) (user : UserRecord)
    (hfind : findOne store email = some user) :
    (findByEmailAndRequestResetPasswordCode env store email plainCode now).1 =
      .ok () ∧
    findOne (findByEmailAndRequestResetPasswordCode env store
        email plainCode now).2 email =
      some { user with
        resetPasswordCode := some ⟨env.fastHash plainCode, now⟩
        resetPasswordToken := none
        resetPasswordCodeGuessCount := 0 } := by
  rw [request_spec env store email plainCode now user hfind]
  exact ⟨rfl, findOne_saveUser_self hfind rfl⟩

/-- Witness for C8 at a concrete input. -/
theorem claim_C8_request_resets_state_witness :
    (findByEmailAndRequestResetPasswordCode testEnv [testUser]
      "user@example.com" "55555555" 42).1 = .ok () ∧
    findOne (findByEmailAndRequestResetPasswordCode testEnv [testUser]
        "user@example.com" "55555555" 42).2 "user@example.com" =
      some { testUser with
        resetPasswordCode := some ⟨testEnv.fastHash "55555555", 42⟩
        resetPasswordToken := none
        resetPasswordCodeGuessCount := 0 } :=
  claim_C8_request_resets_state testEnv [testUser] "user@example.com"
    "55555555" 42 testUser (by rfl)

/-- C9: login (findByCreds) looks the user up by the lower-cased trimmed
email and yields the one generic invalidCredentials kind both when no user
matches the normalized email and when the bcrypt comparison fails, so the
two causes are indistinguishable; on success it returns the public user
view and a session token. -/
theorem claim_C9_login_generic_error (env : Env) (store : Store)
    (email password : String) :
    (findOne store (normalizeEmail email) = none →
      findByCreds env store email password = .error .invalidCredentials) ∧
    (∀ u, findOne store (normalizeEmail email) = some u →
      env.slowCompare password u.password = false →
      findByCreds env store email password = .error .invalidCredentials) ∧
    (∀ u, findOne store (normalizeEmail email) = some u →
      env.slowCompare password u.password = true →
      findByCreds env store email password =
        .ok (env.getPublic u, env.generateAuthToken u.id)) := by
  refine ⟨fun h => ?_, fun u h hc => ?_, fun u h hc => ?_⟩ <;>
    unfold findByCreds <;> rw [h] <;> dsimp only <;> simp [hc]

/-- Witness for C9: the spec scenario with the test user whose stored email
is user@example.com. -/
theorem claim_C9_login_generic_error_witness :
    findByCreds testEnv [testUser] "absent@example.com" "x" =
      .error .invalidCredentials ∧
    findByCreds testEnv [testUser] "user@example.com" "wrong" =
      .error .invalidCredentials ∧
    findByCreds testEnv [testUser] " User@Example.COM" "hunter2" =
      .ok (testEnv.getPublic testUser, testEnv.generateAuthToken testUser.id) :=
  ⟨(claim_C9_login_generic_error testEnv [testUser] "absent@example.com"
      "x").1 (by rfl),
   (claim_C9_login_generic_error testEnv [testUser] "user@example.com"
      "wrong").2.1 testUser (by rfl) (by rfl),
   (claim_C9_login_generic_error testEnv [testUser] " User@Example.COM"
      "hunter2").2.2 testUser (by rfl) (by rfl)⟩

/-- C10: the reset-flow operations look the user up by the exact submitted
email; any email differing from the stored one (in particular one differing
only in letter case or surrounding whitespace, so that it normalizes to the
same string) yields notFound in all three reset operations, while login
with that same email succeeds whenever it normalizes to the stored email
and the password matches. -/
theorem claim_C10_reset_flow_exact_email (env : Env) (u : UserRecord)
    (e plainCode code token pw pwNew rand : String) (now : Nat)
    (_hsim : normalizeEmail e = normalizeEmail u.email) (hne : e ≠ u.email) :
    (findByEmailAndRequestResetPasswordCode env [u] e plainCode now).1 =
      .error .notFound ∧
    (findByEmailAndRequestResetPasswordToken env [u] e (some code) now
      rand).1 = .error .notFound ∧
    (findByEmailAndResetPassword env [u] e (some token) pwNew now).1 =
      .error .notFound ∧
    (normalizeEmail e = u.email → env.slowCompare pw u.password = true →
      findByCreds env [u] e pw =
        .ok (env.getPublic u, env.generateAuthToken u.id)) := by
  have hnone : findOne [u] e = none := by
    unfold findOne
    rw [List.find?_cons_of_neg _ (by simpa using Ne.symm hne)]
    rfl
  refine ⟨?_, ?_, ?_, fun hn hc => ?_⟩
  · unfold findByEmailAndRequestResetPasswordCode
    rw [hnone]
  · unfold findByEmailAndRequestResetPasswordToken
    dsimp only
    rw [hnone]
  · unfold findByEmailAndResetPassword
    dsimp only
    rw [hnone]
  · have hfind : findOne [u] (normalizeEmail e) = some u := by
      rw [hn]
      unfold findOne
      exact List.find?_cons_of_pos _ (by simp)
    unfold findByCreds
    rw [hfind]
    dsimp only
    simp [hc]

/-- Witness for C10: stored email user@example.com; the submitted variant
differs only in case and a leading space. -/
theorem claim_C10_reset_flow_exact_email_witness :
    (findByEmailAndRequestResetPasswordCode testEnv [testUser]
      " User@Example.COM" "55555555" 7).1 = .error .notFound ∧
    (findByEmailAndRequestResetPasswordToken testEnv [testUser]
      " User@Example.COM" (some "12345678") 7 "rnd").1 = .error .notFound ∧
    (findByEmailAndResetPassword testEnv [testUser] " User@Example.COM"
      (some "tok") "newpw" 7).1 = .error .notFound ∧
    findByCreds testEnv [testUser] " User@Example.COM" "hunter2" =
      .ok (testEnv.getPublic testUser, testEnv.generateAuthToken testUser.id) :=
  have h := claim_C10_reset_flow_exact_email testEnv testUser
    " User@Example.COM" "55555555" "12345678" "tok" "hunter2" "newpw" "rnd" 7
    (by rfl) (by decide)
  ⟨h.1, h.2.1, h.2.2.1, h.2.2.2 (by rfl) (by rfl)⟩

/-- C1: for a user that exists with a pending reset code and a submitted
code that is not absent, verifyResetCode succeeds iff the fast hash of the
submitted code equals the stored code hash, the code age is at most
codeTTL, and the guess count is below maxGuessCount; on success the
returned value is exactly the newly issued reset token stored on the user. -/
theorem claim_C1_verify_success_iff (env : Env) (store : Store)
    (email code rand : String) (now : Nat) (user : UserRecord)
    (rc : ResetCodeInfo)
    (hfind : findOne store email = some user)
    (hcode : user.resetPasswordCode = some rc) :
    ((∃ t, (findByEmailAndRequestResetPasswordToken env store email
        (some code) now rand).1 = .ok t) ↔
      (env.fastHash code = rc.code ∧ now - rc.requestedAt ≤ env.codeTTL ∧
        user.resetPasswordCodeGuessCount < env.maxGuessCount)) ∧
    (∀ t, (findByEmailAndRequestResetPasswordToken env store email
        (some code) now rand).1 = .ok t →
      findOne (findByEmailAndRequestResetPasswordToken env store email
          (some code) now rand).2 email =
        some { user with
          resetPasswordToken := some ⟨t, now⟩
          resetPasswordCode := none }) := by
  rw [verify_spec env store email code rand now user rc hfind hcode]
  by_cases h1 : env.maxGuessCount ≤ user.resetPasswordCodeGuessCount
  · rw [if_pos h1]
    refine ⟨⟨?_, ?_⟩, ?_⟩
    · rintro ⟨t, ht⟩
      exact absurd ht (by simp)
    · rintro ⟨-, -, hlt⟩
      omega
    · intro t ht
      exact absurd ht (by simp)
  · rw [if_neg h1]
    by_cases h2 : env.codeTTL < now - rc.requestedAt
    · rw [if_pos h2]
      refine ⟨⟨?_, ?_⟩, ?_⟩
      · rintro ⟨t, ht⟩
        exact absurd ht (by simp)
      · rintro ⟨-, hle, -⟩
        omega
      · intro t ht
        exact absurd ht (by simp)
    · rw [if_neg h2]
      by_cases h3 : rc.code ≠ env.fastHash code
      · rw [if_pos h3]
        refine ⟨⟨?_, ?_⟩, ?_⟩
        · rintro ⟨t, ht⟩
          exact absurd ht (by simp)
        · rintro ⟨hh, -, -⟩
          exact absurd hh.symm h3
        · intro t ht
          exact absurd ht (by simp)
      · rw [if_neg h3]
        push_neg at h3
        refine ⟨⟨?_, ?_⟩, ?_⟩
        · intro
          exact ⟨h3.symm, by omega, by omega⟩
        · intro
          exact ⟨_, rfl⟩
        · intro t ht
          have ht' : env.fastHash (rc.code ++ env.toISOString now ++ rand) = t := by
            simpa using ht
          rw [← ht']
          exact findOne_saveUser_self hfind rfl

/-- Witness for C1 at a concrete input (successful verification). -/
theorem claim_C1_verify_success_iff_witness :
    ((∃ t, (findByEmailAndRequestResetPasswordToken testEnv [testUser]
        "user@example.com" (some "12345678") 10000 "rnd").1 = .ok t) ↔
      (testEnv.fastHash "12345678" = "#12345678" ∧
        10000 - 0 ≤ testEnv.codeTTL ∧
        testUser.resetPasswordCodeGuessCount < testEnv.maxGuessCount)) ∧
    (∀ t, (findByEmailAndRequestResetPasswordToken testEnv [testUser]
        "user@example.com" (some "12345678") 10000 "rnd").1 = .ok t →
      findOne (findByEmailAndRequestResetPasswordToken testEnv [testUser]
          "user@example.com" (some "12345678") 10000 "rnd").2
          "user@example.com" =
        some { testUser with
          resetPasswordToken := some ⟨t, 10000⟩
          resetPasswordCode := none }) :=
  claim_C1_verify_success_iff testEnv [testUser] "user@example.com"
    "12345678" "rnd" 10000 testUser ⟨"#12345678", 0⟩ (by rfl) (by rfl)

/-- C2: on a successful verification the issued token equals the fast hash
of (stored code hash ++ timestamp string ++ fresh random string), and the
persisted record stores that token with requestedAt = now as
pendingResetToken while pendingResetCode is cleared. -/
theorem claim_C2_token_derivation (env : Env) (store : Store)
    (email code rand : String) (now : Nat) (user : UserRecord)
    (rc : ResetCodeInfo)
    (hfind : findOne store email = some user)
    (hcode : user.resetPasswordCode = some rc)
    (hguess : user.resetPasswordCodeGuessCount < env.maxGuessCount)
    (httl : now - rc.requestedAt ≤ env.codeTTL)
    (hmatch : env.fastHash code = rc.code) :
    (findByEmailAndRequestResetPasswordToken env store email (some code)
      now rand).1 =
      .ok (env.fastHash (rc.code ++ env.toISOString now ++ rand)) ∧
    findOne (findByEmailAndRequestResetPasswordToken env store email
        (some code) now rand).2 email =
      some { user with
        resetPasswordToken :=
          some ⟨env.fastHash (rc.code ++ env.toISOString now ++ rand), now⟩
        resetPasswordCode := none } := by
  rw [verify_spec env store email code rand now user rc hfind hcode]
  rw [if_neg (by omega), if_neg (by omega),
    if_neg (fun hne => hne hmatch.symm)]
  exact ⟨rfl, findOne_saveUser_self hfind rfl⟩

/-- Witness for C2 at a concrete input. -/
theorem claim_C2_token_derivation_witness :
    (findByEmailAndRequestResetPasswordToken testEnv [testUser]
      "user@example.com" (some "12345678") 10000 "rnd").1 =
      .ok (testEnv.fastHash ("#12345678" ++ testEnv.toISOString 10000 ++
        "rnd")) ∧
    findOne (findByEmailAndRequestResetPasswordToken testEnv [testUser]
        "user@example.com" (some "12345678") 10000 "rnd").2
        "user@example.com" =
      some { testUser with
        resetPasswordToken :=
          some ⟨testEnv.fastHash ("#12345678" ++ testEnv.toISOString 10000 ++
            "rnd"), 10000⟩
        resetPasswordCode := none } :=
  claim_C2_token_derivation testEnv [testUser] "user@example.com"
    "12345678" "rnd" 10000 testUser ⟨"#12345678", 0⟩ (by rfl) (by rfl)
    (by decide) (by decide) (by rfl)

/-- A user at the guess limit whose code (issued at time 0) is also
expired at the probe time; used by the C4 counterexample. -/
def lockedUser : UserRecord :=
  { testUser with resetPasswordCodeGuessCount := 5 }

/-- C4 counterexample: codeTTL = 300000ms, code issued at 0, correct code
submitted at 301001ms, guess count at the limit (5 = maxGuessCount): the
call fails with rateLimited, not expired, because the source checks the
guess count before expiry — so "fails with Expired regardless of the
current value of resetGuessCount" is false. -/
theorem claim_C4_counterexample :
    (findByEmailAndRequestResetPasswordToken testEnv [lockedUser]
      "user@example.com" (some "12345678") 301001 "rnd").1 =
      .error .rateLimited ∧
    (Except.error ResetError.rateLimited : Except ResetError String) ≠
      .error .expired := by
  refine ⟨by rfl, fun h => ?_⟩
  injection h with h
  exact absurd h (by decide)

/-- C4 amended: with an expired pending code, verification with any
submitted code fails with expired whenever resetGuessCount is still below
maxGuessCount (regardless of its value in that range); once the count has
reached maxGuessCount the failure is rateLimited instead, since the guess
limit is checked first. -/
theorem claim_C4_amended_expiry (env : Env) (store : Store)
    (email code rand : String) (now : Nat) (user : UserRecord)
    (rc : ResetCodeInfo)
    (hfind : findOne store email = some user)
    (hcode : user.resetPasswordCode = some rc)
    (httl : env.codeTTL < now - rc.requestedAt) :
    (user.resetPasswordCodeGuessCount < env.maxGuessCount →
      findByEmailAndRequestResetPasswordToken env store email (some code)
        now rand = (.error .expired, store)) ∧
    (env.maxGuessCount ≤ user.resetPasswordCodeGuessCount →
      findByEmailAndRequestResetPasswordToken env store email (some code)
        now rand = (.error .rateLimited, store)) := by
  rw [verify_spec env store email code rand now user rc hfind hcode]
  constructor
  · intro hg
    rw [if_neg (by omega), if_pos httl]
  · intro hg
    rw [if_pos hg]

/-- Witness for C4 amended: both branches at concrete inputs (guess count
0 gives expired; guess count 5 gives rateLimited). -/
theorem claim_C4_amended_expiry_witness :
    findByEmailAndRequestResetPasswordToken testEnv [testUser]
      "user@example.com" (some "12345678") 301001 "rnd" =
      (.error .expired, [testUser]) ∧
    findByEmailAndRequestResetPasswordToken testEnv [lockedUser]
      "user@example.com" (some "12345678") 301001 "rnd" =
      (.error .rateLimited, [lockedUser]) :=
  ⟨(claim_C4_amended_expiry testEnv [testUser] "user@example.com"
      "12345678" "rnd" 301001 testUser ⟨"#12345678", 0⟩ (by rfl) (by rfl)
      (by decide)).1 (by decide),
   (claim_C4_amended_expiry testEnv [lockedUser] "user@example.com"
      "12345678" "rnd" 301001 lockedUser ⟨"#12345678", 0⟩ (by rfl) (by rfl)
      (by decide)).2 (by decide)⟩

/-- C5: once resetGuessCount has reached maxGuessCount, every verification
call with a present submitted code — at any time and even with the correct
code — fails with rateLimited and leaves the store unchanged (no unlock by
time alone); a new issuance via requestResetCode persists a record with the
count reset to 0 and a fresh pending code. -/
theorem claim_C5_lockout (env : Env) (store : Store)
    (email code rand plainCode : String) (now now2 : Nat)
    (user : UserRecord) (rc : ResetCodeInfo)
    (hfind : findOne store email = some user)
    (hcode : user.resetPasswordCode = some rc)
    (hlock : env.maxGuessCount ≤ user.resetPasswordCodeGuessCount) :
    findByEmailAndRequestResetPasswordToken env store email (some code)
      now rand = (.error .rateLimited, store) ∧
    findOne (findByEmailAndRequestResetPasswordCode env store email
        plainCode now2).2 email =
      some { user with
        resetPasswordCode := some ⟨env.fastHash plainCode, now2⟩
        resetPasswordToken := none
        resetPasswordCodeGuessCount := 0 } := by
  constructor
  · rw [verify_spec env store email code rand now user rc hfind hcode,
      if_pos hlock]
  · rw [request_spec env store email plainCode now2 user hfind]
    exact findOne_saveUser_self hfind rfl

/-- Witness for C5: the locked user rejects the correct code at any probe
time and a fresh issuance resets the count. -/
theorem claim_C5_lockout_witness :
    findByEmailAndRequestResetPasswordToken testEnv [lockedUser]
      "user@example.com" (some "12345678") 999999999 "rnd" =
      (.error .rateLimited, [lockedUser]) ∧
    findOne (findByEmailAndRequestResetPasswordCode testEnv [lockedUser]
        "user@example.com" "77777777" 5000).2 "user@example.com" =
      some { lockedUser with
        resetPasswordCode := some ⟨testEnv.fastHash "77777777", 5000⟩
        resetPasswordToken := none
        resetPasswordCodeGuessCount := 0 } :=
  claim_C5_lockout testEnv [lockedUser] "user@example.com" "12345678"
    "rnd" "77777777" 999999999 5000 lockedUser ⟨"#12345678", 0⟩ (by rfl)
    (by rfl) (by decide)

/-- C6 counterexample: at 301001ms the pending code (issued at 0, codeTTL
300000ms) is expired; the verification attempt fails, yet the store — and
with it the guess count, still 0 — is unchanged, refuting "for every failed
verifyResetCode attempt, resetGuessCount increases by exactly 1". -/
theorem claim_C6_counterexample :
    (findByEmailAndRequestResetPasswordToken testEnv [testUser]
      "user@example.com" (some "12345678") 301001 "rnd").1 =
      .error .expired ∧
    (findByEmailAndRequestResetPasswordToken testEnv [testUser]
      "user@example.com" (some "12345678") 301001 "rnd").2 = [testUser] ∧
    testUser.resetPasswordCodeGuessCount = 0 :=
  ⟨rfl, rfl, rfl⟩

/-- C6 amended: resetGuessCount increases by exactly 1 on a failed attempt
whose failure is the code mismatch; every other failure leaves the store —
and so the count — unchanged, successful verification and commitNewPassword
leave the count unchanged, and requestResetCode resets it to 0 (the only
operation that lowers it). -/
theorem claim_C6_amended_guess_count (env : Env) (store : Store)
    (email code rand plainCode pw : String) (tok : Option String)
    (now now2 now3 : Nat) (user : UserRecord) (rc : ResetCodeInfo)
    (hfind : findOne store email = some user)
    (hcode : user.resetPasswordCode = some rc) :
    ((findByEmailAndRequestResetPasswordToken env store email (some code)
        now rand).1 = .error .mismatch →
      findOne (findByEmailAndRequestResetPasswordToken env store email
          (some code) now rand).2 email =
        some { user with resetPasswordCodeGuessCount :=
          user.resetPasswordCodeGuessCount + 1 }) ∧
    (∀ e, (findByEmailAndRequestResetPasswordToken env store email
        (some code) now rand).1 = .error e → e ≠ .mismatch →
      (findByEmailAndRequestResetPasswordToken env store email (some code)
        now rand).2 = store) ∧
    ((∃ t, (findByEmailAndRequestResetPasswordToken env store email
        (some code) now rand).1 = .ok t) →
      ∃ v, findOne (findByEmailAndRequestResetPasswordToken env store email
          (some code) now rand).2 email = some v ∧
        v.resetPasswordCodeGuessCount = user.resetPasswordCodeGuessCount) ∧
    (∃ v, findOne (findByEmailAndResetPassword env store email tok pw
        now2).2 email = some v ∧
      v.resetPasswordCodeGuessCount = user.resetPasswordCodeGuessCount) ∧
    findOne (findByEmailAndRequestResetPasswordCode env store email
        plainCode now3).2 email =
      some { user with
        resetPasswordCode := some ⟨env.fastHash plainCode, now3⟩
        resetPasswordToken := none
        resetPasswordCodeGuessCount := 0 } := by
  have hcommit : ∃ v, findOne (findByEmailAndResetPassword env store email
      tok pw now2).2 email = some v ∧
      v.resetPasswordCodeGuessCount = user.resetPasswordCodeGuessCount := by
    cases tok with
    | none => exact ⟨user, hfind, rfl⟩
    | some t =>
      cases htok : user.resetPasswordToken with
      | none =>
        have hred : findByEmailAndResetPassword env store email (some t)
            pw now2 = (.error .notFound, store) := by
          unfold findByEmailAndResetPassword
          rw [hfind]
          dsimp only
          rw [htok]
        rw [hred]
        exact ⟨user, hfind, rfl⟩
      | some rt =>
        rw [commit_spec env store email t pw now2 user rt hfind htok]
        by_cases h1 : env.tokenTTL < now2 - rt.requestedAt
        · rw [if_pos h1]
          exact ⟨user, hfind, rfl⟩
        · rw [if_neg h1]
          by_cases h2 : t ≠ rt.token
          · rw [if_pos h2]
            exact ⟨user, hfind, rfl⟩
          · rw [if_neg h2]
            exact ⟨_, findOne_saveUser_self hfind rfl, rfl⟩
  have hreq : findOne (findByEmailAndRequestResetPasswordCode env store
      email plainCode now3).2 email =
      some { user with
        resetPasswordCode := some ⟨env.fastHash plainCode, now3⟩
        resetPasswordToken := none
        resetPasswordCodeGuessCount := 0 } := by
    rw [request_spec env store email plainCode now3 user hfind]
    exact findOne_saveUser_self hfind rfl
  rw [verify_spec env store email code rand now user rc hfind hcode]
  by_cases h1 : env.maxGuessCount ≤ user.resetPasswordCodeGuessCount
  · rw [if_pos h1]
    refine ⟨fun h => absurd h (by simp), fun e he hne => rfl, ?_,
      hcommit, hreq⟩
    rintro ⟨t, ht⟩
    exact absurd ht (by simp)
  · rw [if_neg h1]
    by_cases h2 : env.codeTTL < now - rc.requestedAt
    · rw [if_pos h2]
      refine ⟨fun h => absurd h (by simp), fun e he hne => rfl, ?_,
        hcommit, hreq⟩
      rintro ⟨t, ht⟩
      exact absurd ht (by simp)
    · rw [if_neg h2]
      by_cases h3 : rc.code ≠ env.fastHash code
      · rw [if_pos h3]
        refine ⟨fun _ => findOne_saveUser_self hfind rfl, ?_, ?_,
          hcommit, hreq⟩
        · intro e he hne
          have he' : ResetError.mismatch = e := by simpa using he
          exact absurd he'.symm hne
        · rintro ⟨t, ht⟩
          exact absurd ht (by simp)
      · rw [if_neg h3]
        refine ⟨fun h => absurd h (by simp), ?_, ?_, hcommit, hreq⟩
        · intro e he hne
          exact absurd he (by simp)
        · intro
          exact ⟨_, findOne_saveUser_self hfind rfl, rfl⟩

/-- Witness for C6 amended: a wrong guess at a live code bumps the count
from 0 to 1 in the persisted record. -/
theorem claim_C6_amended_guess_count_witness :
    findOne (findByEmailAndRequestResetPasswordToken testEnv [testUser]
        "user@example.com" (some "00000000") 1000 "rnd").2
        "user@example.com" =
      some { testUser with resetPasswordCodeGuessCount :=
        testUser.resetPasswordCodeGuessCount + 1 } :=
  (claim_C6_amended_guess_count testEnv [testUser] "user@example.com"
    "00000000" "rnd" "55555555" "pw" (some "tok") 1000 1000 1000 testUser
    ⟨"#12345678", 0⟩ (by rfl) (by rfl)).1 (by rfl)

theorem verifyToken_spec (env : Env) (store : Store) (email t : String)
    (now : Nat) (user : UserRecord) (rt : ResetTokenInfo)
    (hfind : findOne store email = some user)
    (htok : user.resetPasswordToken = some rt) :
    verifyResetToken env store email (some t) now =
      if env.tokenTTL < now - rt.requestedAt then .error .expired
      else if t ≠ rt.token then .error .mismatch
      else .ok () := by
  unfold verifyResetToken
  rw [hfind]
  dsimp only
  rw [htok]

/-- C3: commitNewPassword re-validates the token exactly as TokenVerifier
would (the outcome kinds agree on every input); on success the returned
record has credentialHash = slow hash of the new password and no pending
token, it is the one persisted, and resubmitting the same token against the
resulting store fails with notFound. -/
theorem claim_C3_commit_token_lifecycle (env : Env) (store : Store)
    (email : String) (token : Option String) (pw pw2 : String)
    (now now2 : Nat) :
    toUnitResult (findByEmailAndResetPassword env store email token pw
      now).1 = verifyResetToken env store email token now ∧
    (∀ u', (findByEmailAndResetPassword env store email token pw now).1 =
        .ok u' →
      u'.password = env.slowHash pw ∧ u'.resetPasswordToken = none ∧
      findOne (findByEmailAndResetPassword env store email token pw
        now).2 email = some u' ∧
      (findByEmailAndResetPassword env
        (findByEmailAndResetPassword env store email token pw now).2
        email token pw2 now2).1 = .error .notFound) := by
  cases token with
  | none =>
    exact ⟨rfl, fun u' h =>
      absurd h (by simp [findByEmailAndResetPassword])⟩
  | some t =>
    cases hfind : findOne store email with
    | none =>
      constructor
      · unfold findByEmailAndResetPassword verifyResetToken toUnitResult
        rw [hfind]
        rfl
      · intro u' h
        unfold findByEmailAndResetPassword at h
        rw [hfind] at h
        exact absurd h (by simp)
    | some user =>
      cases htok : user.resetPasswordToken with
      | none =>
        have hred : findByEmailAndResetPassword env store email (some t)
            pw now = (.error .notFound, store) := by
          unfold findByEmailAndResetPassword
          rw [hfind]
          dsimp only
          rw [htok]
        have hv : verifyResetToken env store email (some t) now =
            .error .notFound := by
          unfold verifyResetToken
          rw [hfind]
          dsimp only
          rw [htok]
        rw [hred, hv]
        exact ⟨rfl, fun u' h => absurd h (by simp)⟩
      | some rt =>
        rw [commit_spec env store email t pw now user rt hfind htok,
          verifyToken_spec env store email t now user rt hfind htok]
        by_cases h1 : env.tokenTTL < now - rt.requestedAt
        · rw [if_pos h1, if_pos h1]
          exact ⟨rfl, fun u' h => absurd h (by simp)⟩
        · rw [if_neg h1, if_neg h1]
          by_cases h2 : t ≠ rt.token
          · rw [if_pos h2, if_pos h2]
            exact ⟨rfl, fun u' h => absurd h (by simp)⟩
          · rw [if_neg h2, if_neg h2]
            constructor
            · rfl
            · intro u' h
              have hu' : ({ user with
                  password := env.slowHash pw
                  resetPasswordToken := none } : UserRecord) = u' := by
                simpa using h
              have hfound : findOne (saveUser store { user with
                  password := env.slowHash pw
                  resetPasswordToken := none }) email =
                  some { user with
                    password := env.slowHash pw
                    resetPasswordToken := none } :=
                findOne_saveUser_self hfind rfl
              refine ⟨?_, ?_, ?_, ?_⟩
              · rw [← hu']
              · rw [← hu']
              · rw [← hu']
                exact hfound
              · have hresub : findByEmailAndResetPassword env
                    (saveUser store { user with
                      password := env.slowHash pw
                      resetPasswordToken := none }) email (some t) pw2
                    now2 = (.error .notFound, saveUser store { user with
                      password := env.slowHash pw
                      resetPasswordToken := none }) := by
                  unfold findByEmailAndResetPassword
                  rw [hfound]
                rw [hresub]

/-- A user holding a pending reset token; used by the C3 witness. -/
def tokenUser : UserRecord :=
  { id := "u1"
    email := "user@example.com"
    password := "!hunter2"
    resetPasswordCode := none
    resetPasswordCodeGuessCount := 0
    resetPasswordToken := some ⟨"tok123", 1000⟩ }

/-- Witness for C3: the spec scenario — token issued at 1000ms, commit at
2000ms succeeds, clears the token and persists; resubmitting the same
token at 3000ms yields notFound. -/
theorem claim_C3_commit_token_lifecycle_witness :
    ({ tokenUser with
        password := testEnv.slowHash "newpw"
        resetPasswordToken := none } : UserRecord).password =
      testEnv.slowHash "newpw" ∧
    ({ tokenUser with
        password := testEnv.slowHash "newpw"
        resetPasswordToken := none } : UserRecord).resetPasswordToken =
      none ∧
    findOne (findByEmailAndResetPassword testEnv [tokenUser]
        "user@example.com" (some "tok123") "newpw" 2000).2
        "user@example.com" =
      some { tokenUser with
        password := testEnv.slowHash "newpw"
        resetPasswordToken := none } ∧
    (findByEmailAndResetPassword testEnv
      (findByEmailAndResetPassword testEnv [tokenUser] "user@example.com"
        (some "tok123") "newpw" 2000).2
      "user@example.com" (some "tok123") "again" 3000).1 =
      .error .notFound :=
  (claim_C3_commit_token_lifecycle testEnv [tokenUser] "user@example.com"
    (some "tok123") "newpw" "again" 2000 3000).2
    { tokenUser with
      password := testEnv.slowHash "newpw"
      resetPasswordToken := none } (by rfl)

/-! ## The reachable-state invariant (C7) -/

theorem request_store_cases (env : Env) (store : Store)
    (email plainCode : String) (now : Nat) :
    (findByEmailAndRequestResetPasswordCode env store email plainCode
      now).2 = store ∨
    (∃ user, findOne store email = some user ∧
      (findByEmailAndRequestResetPasswordCode env store email plainCode
        now).2 = saveUser store { user with
          resetPasswordCode := some ⟨env.fastHash plainCode, now⟩
          resetPasswordToken := none
          resetPasswordCodeGuessCount := 0 }) := by
  cases hfind : findOne store email with
  | none =>
    left
    unfold findByEmailAndRequestResetPasswordCode
    rw [hfind]
  | some user =>
    right
    exact ⟨user, rfl, by rw [request_spec env store email plainCode now
      user hfind]⟩

theorem verify_store_cases (env : Env) (store : Store) (email : String)
    (code : Option String) (now : Nat) (rand : String) :
    (findByEmailAndRequestResetPasswordToken env store email code now
      rand).2 = store ∨
    (∃ user, findOne store email = some user ∧
      (findByEmailAndRequestResetPasswordToken env store email code now
        rand).2 = saveUser store { user with
          resetPasswordCodeGuessCount :=
            user.resetPasswordCodeGuessCount + 1 }) ∨
    (∃ user rc, findOne store email = some user ∧
      user.resetPasswordCode = some rc ∧
      (findByEmailAndRequestResetPasswordToken env store email code now
        rand).2 = saveUser store { user with
          resetPasswordToken :=
            some ⟨env.fastHash (rc.code ++ env.toISOString now ++ rand),
              now⟩
          resetPasswordCode := none }) := by
  cases code with
  | none => left; rfl
  | some c =>
    cases hfind : findOne store email with
    | none =>
      left
      unfold findByEmailAndRequestResetPasswordToken
      dsimp only
      rw [hfind]
    | some user =>
      cases hcode : user.resetPasswordCode with
      | none =>
        left
        unfold findByEmailAndRequestResetPasswordToken
        dsimp only
        rw [hfind]
        dsimp only
        rw [hcode]
      | some rc =>
        rw [verify_spec env store email c rand now user rc hfind hcode]
        by_cases h1 : env.maxGuessCount ≤ user.resetPasswordCodeGuessCount
        · left; rw [if_pos h1]
        · rw [if_neg h1]
          by_cases h2 : env.codeTTL < now - rc.requestedAt
          · left; rw [if_pos h2]
          · rw [if_neg h2]
            by_cases h3 : rc.code ≠ env.fastHash c
            · right; left
              exact ⟨user, rfl, by rw [if_pos h3]⟩
            · right; right
              exact ⟨user, rc, rfl, hcode, by rw [if_neg h3]⟩

theorem commit_store_cases (env : Env) (store : Store) (email : String)
    (token : Option String) (pw : String) (now : Nat) :
    (findByEmailAndResetPassword env store email token pw now).2 =
      store ∨
    (∃ user, findOne store email = some user ∧
      (findByEmailAndResetPassword env store email token pw now).2 =
        saveUser store { user with
          password := env.slowHash pw
          resetPasswordToken := none }) := by
  cases token with
  | none => left; rfl
  | some t =>
    cases hfind : findOne store email with
    | none =>
      left
      unfold findByEmailAndResetPassword
      dsimp only
      rw [hfind]
    | some user =>
      cases htok : user.resetPasswordToken with
      | none =>
        left
        unfold findByEmailAndResetPassword
        dsimp only
        rw [hfind]
        dsimp only
        rw [htok]
      | some rt =>
        rw [commit_spec env store email t pw now user rt hfind htok]
        by_cases h1 : env.tokenTTL < now - rt.requestedAt
        · left; rw [if_pos h1]
        · rw [if_neg h1]
          by_cases h2 : t ≠ rt.token
          · left; rw [if_pos h2]
          · right
            exact ⟨user, rfl, by rw [if_neg h2]⟩

theorem applyOp_atMostOne (env : Env) (store : Store) (op : ResetOp)
    (hinv : ∀ u ∈ store, atMostOnePending u) :
    ∀ u ∈ applyOp env store op, atMostOnePending u := by
  cases op with
  | request e c n =>
    intro u hu
    replace hu : u ∈ (findByEmailAndRequestResetPasswordCode env store
      e c n).2 := hu
    rcases request_store_cases env store e c n with h | ⟨w, hw, h⟩
    · rw [h] at hu
      exact hinv u hu
    · rw [h] at hu
      rcases mem_saveUser hu with rfl | hmem
      · exact Or.inr rfl
      · exact hinv u hmem
  | verify e c n r =>
    intro u hu
    replace hu : u ∈ (findByEmailAndRequestResetPasswordToken env store
      e c n r).2 := hu
    rcases verify_store_cases env store e c n r with
      h | ⟨w, hw, h⟩ | ⟨w, rc, hw, hwc, h⟩
    · rw [h] at hu
      exact hinv u hu
    · rw [h] at hu
      rcases mem_saveUser hu with rfl | hmem
      · exact hinv w (findOne_mem hw)
      · exact hinv u hmem
    · rw [h] at hu
      rcases mem_saveUser hu with rfl | hmem
      · exact Or.inl rfl
      · exact hinv u hmem
  | commit e t p n =>
    intro u hu
    replace hu : u ∈ (findByEmailAndResetPassword env store e t p n).2 :=
      hu
    rcases commit_store_cases env store e t p n with h | ⟨w, hw, h⟩
    · rw [h] at hu
      exact hinv u hu
    · rw [h] at hu
      rcases mem_saveUser hu with rfl | hmem
      · exact Or.inr rfl
      · exact hinv u hmem

/-- C7: from any store in which every user has at most one of
pendingResetCode / pendingResetToken, any sequence of requestResetCode,
verifyResetCode and commitNewPassword operations preserves that mutual
exclusion for every user. -/
theorem claim_C7_mutual_exclusion (env : Env) (store : Store)
    (ops : List ResetOp)
    (hinv : ∀ u ∈ store, atMostOnePending u) :
    ∀ u ∈ runOps env store ops, atMostOnePending u := by
  induction ops generalizing store with
  | nil => simpa [runOps] using hinv
  | cons op ops ih =>
    intro u hu
    unfold runOps at hu
    exact ih (applyOp env store op) (applyOp_atMostOne env store op hinv)
      u hu

/-- A full concrete reset flow: issuance at 1000ms, successful code
verification at 2000ms, password commit at 3000ms. -/
def demoOps : List ResetOp :=
  [.request "user@example.com" "99999999" 1000,
   .verify "user@example.com" (some "99999999") 2000 "r",
   .commit "user@example.com" (some "##99999999T2000r") "newpw" 3000]

/-- Witness for C7: running the full concrete flow from the singleton test
store, the resulting user record satisfies the mutual exclusion. -/
theorem claim_C7_mutual_exclusion_witness :
    atMostOnePending
      { id := "u1"
        email := "user@example.com"
        password := "!newpw"
        resetPasswordCode := none
        resetPasswordCodeGuessCount := 0
        resetPasswordToken := none } :=
  claim_C7_mutual_exclusion testEnv [testUser] demoOps
    (by intro u hu
        rw [List.mem_singleton] at hu
        subst hu
        exact Or.inr rfl)
    _ (by decide)
